import Mathlib

/-!
Verification of the request-signing and mirror-synchronization pipeline of
the `vuetest` repository (edge functions `api/num.js` and `api/sync.js`).

The JavaScript source is shallowly embedded: JS strings become `String`,
byte arrays (`Uint8Array`) become `List Nat` with entries below 256, the
Web Crypto digest/HMAC primitives (which are platform built-ins, not code
of the repository) are passed in as explicit function parameters, and the
ambient clock (`Date.now`) becomes an explicit `now : Nat` argument.
-/

/-! ## Byte-level primitives: hex rendering and UTF-8 encoding -/

/-- Lowercase hexadecimal digit, as produced by JS `Number.prototype.toString(16)`. -/
def hexChar (n : Nat) : Char :=
  match n with
  | 0 => '0' | 1 => '1' | 2 => '2' | 3 => '3' | 4 => '4'
  | 5 => '5' | 6 => '6' | 7 => '7' | 8 => '8' | 9 => '9'
  | 10 => 'a' | 11 => 'b' | 12 => 'c' | 13 => 'd' | 14 => 'e' | 15 => 'f'
  | _ => '0'

/-- Value of a lowercase hexadecimal digit. -/
def hexVal (c : Char) : Nat :=
  match c with
  | '0' => 0 | '1' => 1 | '2' => 2 | '3' => 3 | '4' => 4
  | '5' => 5 | '6' => 6 | '7' => 7 | '8' => 8 | '9' => 9
  | 'a' => 10 | 'b' => 11 | 'c' => 12 | 'd' => 13 | 'e' => 14 | 'f' => 15
  | _ => 0

/-- Uppercase hexadecimal digit, as produced by JS `encodeURIComponent` percent escapes. -/
def hexCharUpper (n : Nat) : Char :=
  match n with
  | 0 => '0' | 1 => '1' | 2 => '2' | 3 => '3' | 4 => '4'
  | 5 => '5' | 6 => '6' | 7 => '7' | 8 => '8' | 9 => '9'
  | 10 => 'A' | 11 => 'B' | 12 => 'C' | 13 => 'D' | 14 => 'E' | 15 => 'F'
  | _ => '0'

/-- Value of an uppercase hexadecimal digit. -/
def hexValUpper (c : Char) : Nat :=
  match c with
  | '0' => 0 | '1' => 1 | '2' => 2 | '3' => 3 | '4' => 4
  | '5' => 5 | '6' => 6 | '7' => 7 | '8' => 8 | '9' => 9
  | 'A' => 10 | 'B' => 11 | 'C' => 12 | 'D' => 13 | 'E' => 14 | 'F' => 15
  | _ => 0

/-- Two lowercase hex digits of one byte: JS `b.toString(16).padStart(2, '0')`
for a `Uint8Array` entry (always below 256, hence always two digits). -/
def toHexByte (b : Nat) : List Char :=
  [hexChar (b / 16 % 16), hexChar (b % 16)]

/-- Lowercase hex string of a byte list: JS
`Array.from(bytes).map((b) => b.toString(16).padStart(2, '0')).join('')`. -/
def toHex (bs : List Nat) : String :=
  String.mk ((bs.map toHexByte).flatten)

/-- UTF-8 encoding of one character (the encoding performed by JS `TextEncoder`). -/
def utf8Bytes (c : Char) : List Nat :=
  let n := c.toNat
  if n < 0x80 then [n]
  else if n < 0x800 then [0xC0 + n / 0x40, 0x80 + n % 0x40]
  else if n < 0x10000 then [0xE0 + n / 0x1000, 0x80 + n / 0x40 % 0x40, 0x80 + n % 0x40]
  else [0xF0 + n / 0x40000, 0x80 + n / 0x1000 % 0x40, 0x80 + n / 0x40 % 0x40, 0x80 + n % 0x40]

/-- UTF-8 bytes of a string: JS `new TextEncoder().encode(s)`. -/
def strBytes (s : String) : List Nat :=
  (s.data.map utf8Bytes).flatten

/-- ASCII lowercasing of one character; models JS `toLowerCase` on the ASCII
range (all strings the handlers lowercase are ASCII header names, methods and
file keys). -/
def lowerChar (c : Char) : Char :=
  if 65 ≤ c.toNat ∧ c.toNat ≤ 90 then Char.ofNat (c.toNat + 32) else c

/-- ASCII lowercasing of a string: JS `s.toLowerCase()`. -/
def lowerStr (s : String) : String :=
  String.mk (s.data.map lowerChar)

/-- Code-unit lexicographic order on character lists, the comparison behind the
JS default `Array.prototype.sort` on strings. -/
def charListLe : List Char → List Char → Bool
  | [], _ => true
  | a :: as, bs =>
    match bs with
    | [] => false
    | b :: bt =>
      if a.toNat < b.toNat then true
      else if b.toNat < a.toNat then false
      else charListLe as bt

/-- JS default string comparison used by `Array.prototype.sort()`. -/
def strLe (a b : String) : Bool :=
  charListLe a.data b.data

/-- Insert one string into a sorted list of strings. -/
def insertSorted (s : String) : List String → List String
  | [] => [s]
  | t :: ts => if strLe s t then s :: t :: ts else t :: insertSorted s ts

/-- Insertion sort by the JS default string order: models `array.sort()`. -/
def sortStrings (l : List String) : List String :=
  l.foldr insertSorted []

/-- Insert one key-value pair into a list of pairs sorted by key. -/
def insertHeaderSorted (p : String × String) :
    List (String × String) → List (String × String)
  | [] => [p]
  | q :: qs => if strLe p.1 q.1 then p :: q :: qs else q :: insertHeaderSorted p qs

/-- Sort key-value pairs by key in the JS default string order. -/
def sortHeaderPairs (l : List (String × String)) : List (String × String) :=
  l.foldr insertHeaderSorted []

/-- JS `Array.prototype.join(sep)`. -/
def jsJoin (sep : String) : List String → String
  | [] => ""
  | [a] => a
  | a :: rest => a ++ sep ++ jsJoin sep rest

/-- A Web Crypto key input is either a JS string or a raw byte array; the source
dispatches on `typeof key === 'string'`. -/
def KeyInput := Sum String (List Nat)

/-- Models `typeof key === 'string' ? enc.encode(key) : key`. -/
def keyBytes : KeyInput → List Nat
  | Sum.inl s => strBytes s
  | Sum.inr bs => bs

/-! ## `api/num.js`: TC3-HMAC-SHA256 signer

The raw HMAC-SHA256 primitive (`crypto.subtle.sign('HMAC', …)` with hash
SHA-256) is a platform built-in; it enters the embedding as a parameter
`H : List Nat → List Nat → List Nat` taking key bytes and message bytes to
the 32 MAC bytes. -/

/-- Function `hmacSha256(key, message)` from `api/num.js`: raw MAC bytes, with the key
encoded only when it is a string. -/
def hmacSha256 (H : List Nat → List Nat → List Nat) (key : KeyInput) (message : String) :
    List Nat :=
  H (keyBytes key) (strBytes message)

/-- Function `hmacSha256Hex(key, message)` from `api/num.js`: lowercase hex of the MAC bytes. -/
def hmacSha256Hex (H : List Nat → List Nat → List Nat) (key : KeyInput) (message : String) :
    String :=
  toHex (H (keyBytes key) (strBytes message))

/-- Function `getSignature(secretKey, date, service, stringToSign)` from `api/num.js`. -/
def getSignature (H : List Nat → List Nat → List Nat)
    (secretKey date service stringToSign : String) : String :=
  let kDate := hmacSha256 H (Sum.inl ("TC3" ++ secretKey)) date
  let kService := hmacSha256 H (Sum.inr kDate) service
  let kSigning := hmacSha256 H (Sum.inr kService) "tc3_request"
  hmacSha256Hex H (Sum.inr kSigning) stringToSign

/-- Spec-side rendering of C1, written from the spec text: `kDate` is
HMAC-SHA256 keyed by the bytes of `"TC3" ++ secret` applied to the date,
`kService` is keyed by the raw bytes `kDate` applied to the service,
`kSigning` is keyed by the raw bytes `kService` applied to the literal
`"tc3_request"`, and the result is the lowercase hex of HMAC-SHA256 keyed
by the raw bytes `kSigning` applied to the string-to-sign. -/
def getSignatureSpec (H : List Nat → List Nat → List Nat)
    (secretKey date service stringToSign : String) : String :=
  toHex (H (H (H (H (strBytes ("TC3" ++ secretKey)) (strBytes date))
      (strBytes service)) (strBytes "tc3_request")) (strBytes stringToSign))

/-- A character is a lowercase hex digit. -/
def isLowerHexChar (c : Char) : Bool :=
  (48 ≤ c.toNat && c.toNat ≤ 57) || (97 ≤ c.toNat && c.toNat ≤ 102)

theorem hexChar_lower (n : Nat) : isLowerHexChar (hexChar n) = true := by
  unfold hexChar
  split <;> decide

theorem toHex_lower (bs : List Nat) : (toHex bs).data.all isLowerHexChar = true := by
  unfold toHex
  induction bs with
  | nil => decide
  | cons b t ih =>
    simp only [List.map_cons, List.flatten, List.all_append, ih, Bool.and_true]
    simp [toHexByte, List.all, hexChar_lower]

/-- C1: the Cloud-API signer computes the signature by the fixed 4-step
HMAC chain of the spec, with `"TC3"` concatenated before the secret, the
literal `"tc3_request"`, intermediate keys used as raw bytes, and a
lowercase-hex result. -/
theorem c1_tc3_key_chain (H : List Nat → List Nat → List Nat)
    (secretKey date service stringToSign : String) :
    getSignature H secretKey date service stringToSign =
      getSignatureSpec H secretKey date service stringToSign ∧
    (getSignature H secretKey date service stringToSign).data.all isLowerHexChar = true := by
  refine ⟨rfl, ?_⟩
  exact toHex_lower _

/-! ## `api/num.js`: canonical request and authorization value of the metrics
endpoint (`onRequest`) -/

/-- Constant `host` of `api/num.js`: the literal `teo.tencentcloudapi.com`. -/
def numHost : String := "teo.tencentcloudapi.com"

/-- Constant `algorithm` of `api/num.js`: the literal `TC3-HMAC-SHA256`. -/
def numAlgorithm : String := "TC3-HMAC-SHA256"

/-- Constant `canonicalHeaders` template literal from `api/num.js`. -/
def numCanonicalHeaders : String :=
  "content-type:application/json; charset=utf-8\nhost:" ++ numHost ++ "\n"

/-- Constant `signedHeaders` of `api/num.js`: the literal `content-type;host`. -/
def numSignedHeaders : String := "content-type;host"

/-- Constant `canonicalRequest` template literal from `api/num.js`, as a
function of the hex SHA-256 of the request body. -/
def numCanonicalRequest (hashedRequestPayload : String) : String :=
  "POST" ++ "\n" ++ "/" ++ "\n" ++ "" ++ "\n" ++ numCanonicalHeaders ++ "\n" ++
    numSignedHeaders ++ "\n" ++ hashedRequestPayload

/-- Constant `credentialScope` template literal from `api/num.js`. -/
def numCredentialScope (date : String) : String :=
  date ++ "/" ++ "teo" ++ "/" ++ "tc3_request"

/-- Constant `authorization` template literal from `api/num.js`. -/
def numAuthorization (secretId date signature : String) : String :=
  numAlgorithm ++ " Credential=" ++ secretId ++ "/" ++ numCredentialScope date ++
    ", SignedHeaders=" ++ numSignedHeaders ++ ", Signature=" ++ signature

/-- Spec-side rendering of the Cloud-API canonical request, written from the
spec text: METHOD, URI, query string, the canonical-headers block (each entry
`key:value` followed by a newline, keys lowercased and sorted), the
`;`-joined sorted signed-header list and the hex SHA-256 of the body, all
joined by newlines.  Because the headers block itself ends with a newline,
exactly one blank line separates it from the signed-header list. -/
def specCanonicalRequest (method uri queryString : String)
    (headers : List (String × String)) (bodyHash : String) : String :=
  let hs := sortHeaderPairs (headers.map (fun p => (lowerStr p.1, p.2)))
  let block := String.join (hs.map (fun p => p.1 ++ ":" ++ p.2 ++ "\n"))
  let signedList := jsJoin ";" (hs.map (fun p => p.1))
  method ++ "\n" ++ uri ++ "\n" ++ queryString ++ "\n" ++ block ++ "\n" ++
    signedList ++ "\n" ++ bodyHash

/-- C2: the canonical request built by the metrics endpoint is exactly the
spec-side canonical request over method POST, URI `/`, empty query, the two
headers, and the body hash; spelled out it contains exactly one blank line
between the canonical-headers block and the signed-header list; and the
authorization value has the claimed `Credential=<id>/<date>/<service>/tc3_request`
shape. -/
theorem c2_canonical_request_shape (bodyHash secretId date signature : String) :
    numCanonicalRequest bodyHash =
      specCanonicalRequest "POST" "/" ""
        [("Host", numHost), ("Content-Type", "application/json; charset=utf-8")] bodyHash ∧
    numCanonicalRequest bodyHash =
      "POST\n/\n\ncontent-type:application/json; charset=utf-8\nhost:teo.tencentcloudapi.com\n\ncontent-type;host\n"
        ++ bodyHash ∧
    numAuthorization secretId date signature =
      numAlgorithm ++ " Credential=" ++ secretId ++ "/" ++
        (date ++ "/" ++ "teo" ++ "/" ++ "tc3_request") ++ ", SignedHeaders=" ++
        "content-type;host" ++ ", Signature=" ++ signature := by
  exact ⟨rfl, rfl, rfl⟩

/-! ## `api/sync.js`: helpers

`encodeURIComponent` and `String.prototype.trim` are JS built-ins; they are
embedded concretely below (percent encoding of UTF-8 bytes outside the
unreserved set, uppercase hex escapes). The SHA-1 and HMAC-SHA1 Web Crypto
primitives are parameters `SH : List Nat → List Nat` and
`H1 : List Nat → List Nat → List Nat` over byte lists. -/

/-- JS `String.prototype.endsWith`. -/
def strEndsWith (s suffix : String) : Bool :=
  suffix.data.isSuffixOf s.data

/-- Function `guessContentTypeByKey(key)` from `api/sync.js`. -/
def guessContentTypeByKey (key : String) : String :=
  let lower := lowerStr key
  if strEndsWith lower ".js" then "application/javascript; charset=utf-8"
  else if strEndsWith lower ".mjs" then "application/javascript; charset=utf-8"
  else if strEndsWith lower ".cjs" then "application/javascript; charset=utf-8"
  else if strEndsWith lower ".css" then "text/css; charset=utf-8"
  else if strEndsWith lower ".json" then "application/json; charset=utf-8"
  else if strEndsWith lower ".map" then "application/octet-stream"
  else if strEndsWith lower ".svg" then "image/svg+xml"
  else if strEndsWith lower ".png" then "image/png"
  else if strEndsWith lower ".jpg" || strEndsWith lower ".jpeg" then "image/jpeg"
  else if strEndsWith lower ".gif" then "image/gif"
  else if strEndsWith lower ".webp" then "image/webp"
  else if strEndsWith lower ".woff" then "font/woff"
  else if strEndsWith lower ".woff2" then "font/woff2"
  else "application/octet-stream"

/-- Characters `encodeURIComponent` leaves unescaped:
`A-Z a-z 0-9 - _ . ! ~ * ' ( )`. -/
def isUnreservedChar (c : Char) : Bool :=
  let n := c.toNat
  (65 ≤ n && n ≤ 90) || (97 ≤ n && n ≤ 122) || (48 ≤ n && n ≤ 57) ||
    (n == 45) || (n == 95) || (n == 46) || (n == 33) || (n == 126) ||
    (n == 42) || (n == 39) || (n == 40) || (n == 41)

/-- Percent escape of one byte (uppercase hex, as `encodeURIComponent` emits). -/
def pctByte (b : Nat) : List Char :=
  ['%', hexCharUpper (b / 16 % 16), hexCharUpper (b % 16)]

/-- Behavior of `encodeURIComponent` on one character: kept verbatim when unreserved,
otherwise each UTF-8 byte is percent-escaped. -/
def encChar (c : Char) : List Char :=
  if isUnreservedChar c then [c] else ((utf8Bytes c).map pctByte).flatten

/-- JS `encodeURIComponent`. -/
def encodeURIComponent (s : String) : String :=
  String.mk ((s.data.map encChar).flatten)

/-- JS whitespace stripped by `String.prototype.trim` (the forms occurring in
HTTP header values). -/
def isWsChar (c : Char) : Bool :=
  c.toNat == 32 || c.toNat == 9 || c.toNat == 10 || c.toNat == 13

/-- JS `String.prototype.trim`. -/
def trimStr (s : String) : String :=
  String.mk (((s.data.dropWhile isWsChar).reverse.dropWhile isWsChar).reverse)

/-- JS `Map.prototype.set`: overwrite the value in place when the key exists,
append a new entry otherwise (insertion order is preserved). -/
def mapSet (m : List (String × String)) (k v : String) : List (String × String) :=
  if m.any (fun p => p.1 == k) then m.map (fun p => if p.1 == k then (k, v) else p)
  else m ++ [(k, v)]

/-- JS `Map.prototype.get` as an option. -/
def mapGet (m : List (String × String)) (k : String) : Option String :=
  (m.find? (fun p => p.1 == k)).map (fun p => p.2)

/-- Models `headerMap.get(k)` as used inside a template literal: a missing key would
surface as the string `"undefined"`. -/
def jsGetStr (m : List (String × String)) (k : String) : String :=
  match mapGet m k with
  | some v => v
  | none => "undefined"

/-- The loop body of `normalizeHeaders`: skip a null or undefined value,
lowercase the key, trim the value, and `Map.set` only `host` and
`content-type`. -/
def normStep (m : List (String × String)) (kv : String × Option String) :
    List (String × String) :=
  match kv.2 with
  | none => m
  | some v =>
    let lk := lowerStr kv.1
    let lv := trimStr v
    if lk == "host" || lk == "content-type" then mapSet m lk lv else m

/-- Function `normalizeHeaders(headers)` from `api/sync.js`.  A JS object becomes an
association list in entry order, with `none` standing for a null or undefined
value. -/
def normalizeHeaders (headers : List (String × Option String)) :
    List (String × String) :=
  headers.foldl normStep []

/-! ## `api/sync.js`: COS V5 signer (`buildCOSAuth`) -/

/-- Value `signTime` from `buildCOSAuth`: now and `now + 600`, semicolon-joined. -/
def cosSignTime (now : Nat) : String :=
  toString now ++ ";" ++ toString (now + 600)

/-- Value `signKey` from `buildCOSAuth`. -/
def cosSignKey (H1 : List Nat → List Nat → List Nat) (secretKey : String) (now : Nat) :
    String :=
  toHex (H1 (strBytes secretKey) (strBytes (cosSignTime now)))

/-- Function `hmacSha1Hex(key, message)` from `api/sync.js`. -/
def hmacSha1Hex (H1 : List Nat → List Nat → List Nat) (key : KeyInput) (message : String) :
    String :=
  toHex (H1 (keyBytes key) (strBytes message))

/-- Function `sha1Hex(input)` from `api/sync.js`. -/
def sha1Hex (SH : List Nat → List Nat) (input : KeyInput) : String :=
  toHex (SH (keyBytes input))

/-- Value `headerKeysSorted` from `buildCOSAuth`. -/
def cosHeaderKeysSorted (headerMap : List (String × String)) : List String :=
  sortStrings (headerMap.map (fun p => p.1))

/-- Value `httpString` from `buildCOSAuth`: method, path, empty query segment and the
rendered headers, newline-joined with a trailing newline. -/
def cosHttpString (method pathname : String) (headerMap : List (String × String)) :
    String :=
  jsJoin "\n" [lowerStr method, pathname, "",
    jsJoin "&" ((cosHeaderKeysSorted headerMap).map
      (fun k => k ++ "=" ++ encodeURIComponent (jsGetStr headerMap k)))] ++ "\n"

/-- Value `stringToSign` from `buildCOSAuth`. -/
def cosStringToSign (SH : List Nat → List Nat) (signTime httpString : String) : String :=
  jsJoin "\n" ["sha1", signTime, sha1Hex SH (Sum.inl httpString)] ++ "\n"

/-- Value `signature` from `buildCOSAuth`. -/
def cosSignature (SH : List Nat → List Nat) (H1 : List Nat → List Nat → List Nat)
    (secretKey method pathname : String) (headerMap : List (String × String))
    (now : Nat) : String :=
  hmacSha1Hex H1 (Sum.inl (cosSignKey H1 secretKey now))
    (cosStringToSign SH (cosSignTime now) (cosHttpString method pathname headerMap))

/-- Function `buildCOSAuth({secretId, secretKey, method, pathname, headers, params})`
from `api/sync.js`; `params` is the key list of the `params` object and `now`
is `Math.floor(Date.now() / 1000)`. -/
def buildCOSAuth (SH : List Nat → List Nat) (H1 : List Nat → List Nat → List Nat)
    (secretId secretKey method pathname : String)
    (headers : List (String × Option String)) (params : List String) (now : Nat) :
    String :=
  let signTime := cosSignTime now
  let keyTime := signTime
  let urlParamList := jsJoin ";" (sortStrings (params.map lowerStr))
  let headerMap := normalizeHeaders headers
  let headerList := jsJoin ";" (cosHeaderKeysSorted headerMap)
  let signature := cosSignature SH H1 secretKey method pathname headerMap now
  "q-sign-algorithm=sha1&q-ak=" ++ encodeURIComponent secretId ++ "&q-sign-time=" ++
    signTime ++ "&q-key-time=" ++ keyTime ++ "&q-header-list=" ++ headerList ++
    "&q-url-param-list=" ++ urlParamList ++ "&q-signature=" ++ signature

/-- Spec-side rendering of C3, written from the spec text: `signTime` is
start and end epoch (start plus 600) semicolon-joined; `signKey` is
HMAC-SHA1 of the secret over `signTime` (hex); `httpString` is the
lowercased method, the path, an empty query segment and the sorted signed
headers rendered `key=urlEncode(value)` and `&`-joined, all newline-joined
with a trailing newline; `stringToSign` is `"sha1"`, `signTime` and the hex
SHA-1 of `httpString`, newline-joined with a trailing newline; the signature
is the hex HMAC-SHA1 of `stringToSign` under `signKey`. -/
def cosSignatureSpec (SH : List Nat → List Nat) (H1 : List Nat → List Nat → List Nat)
    (secretKey method pathname : String) (headers : List (String × Option String))
    (now : Nat) : String :=
  let signTime := toString now ++ ";" ++ toString (now + 600)
  let signKey := toHex (H1 (strBytes secretKey) (strBytes signTime))
  let m := normalizeHeaders headers
  let sortedKeys := sortStrings (m.map (fun p => p.1))
  let httpString := lowerStr method ++ "\n" ++ pathname ++ "\n" ++ "" ++ "\n" ++
    jsJoin "&" (sortedKeys.map (fun k => k ++ "=" ++ encodeURIComponent (jsGetStr m k)))
      ++ "\n"
  let stringToSign := "sha1" ++ "\n" ++ signTime ++ "\n" ++
    toHex (SH (strBytes httpString)) ++ "\n"
  toHex (H1 (strBytes signKey) (strBytes stringToSign))

theorem newline_newline_append (s : String) : ("\n" : String) ++ ("\n" ++ s) = "\n\n" ++ s := by
  rw [← String.append_assoc]
  rfl

/-- C3: the Object-Storage signer computes `signTime`, `signKey`,
`httpString`, `stringToSign` and the signature exactly as the spec states,
and the emitted authorization value embeds that signature. -/
theorem c3_cos_signing_chain (SH : List Nat → List Nat)
    (H1 : List Nat → List Nat → List Nat)
    (secretId secretKey method pathname : String)
    (headers : List (String × Option String)) (params : List String) (now : Nat) :
    cosSignTime now = toString now ++ ";" ++ toString (now + 600) ∧
    cosSignKey H1 secretKey now =
      toHex (H1 (strBytes secretKey) (strBytes (cosSignTime now))) ∧
    cosHttpString method pathname (normalizeHeaders headers) =
      lowerStr method ++ "\n" ++ pathname ++ "\n" ++ "" ++ "\n" ++
        jsJoin "&" ((sortStrings ((normalizeHeaders headers).map (fun p => p.1))).map
          (fun k => k ++ "=" ++ encodeURIComponent (jsGetStr (normalizeHeaders headers) k)))
        ++ "\n" ∧
    cosStringToSign SH (cosSignTime now)
        (cosHttpString method pathname (normalizeHeaders headers)) =
      "sha1" ++ "\n" ++ cosSignTime now ++ "\n" ++
        toHex (SH (strBytes (cosHttpString method pathname (normalizeHeaders headers))))
        ++ "\n" ∧
    cosSignature SH H1 secretKey method pathname (normalizeHeaders headers) now =
      cosSignatureSpec SH H1 secretKey method pathname headers now ∧
    buildCOSAuth SH H1 secretId secretKey method pathname headers params now =
      "q-sign-algorithm=sha1&q-ak=" ++ encodeURIComponent secretId ++ "&q-sign-time=" ++
        cosSignTime now ++ "&q-key-time=" ++ cosSignTime now ++ "&q-header-list=" ++
        jsJoin ";" (cosHeaderKeysSorted (normalizeHeaders headers)) ++
        "&q-url-param-list=" ++ jsJoin ";" (sortStrings (params.map lowerStr)) ++
        "&q-signature=" ++
        cosSignature SH H1 secretKey method pathname (normalizeHeaders headers) now := by
  refine ⟨rfl, rfl, ?_, ?_, ?_, rfl⟩
  · simp [cosHttpString, cosHeaderKeysSorted, jsJoin, String.append_assoc,
      newline_newline_append]
  · simp [cosStringToSign, jsJoin, sha1Hex, keyBytes, String.append_assoc]
  · simp [cosSignature, cosSignatureSpec, cosSignKey, cosSignTime, cosStringToSign,
      cosHttpString, cosHeaderKeysSorted, hmacSha1Hex, sha1Hex, keyBytes, jsJoin,
      String.append_assoc, newline_newline_append]

/-! ## `api/sync.js`: mirror synchronizer (`onRequest`)

The three network calls — destination existence probe (HEAD), source CDN
fetch (GET) and destination upload (PUT) — are external services; a
`SyncWorld` records the responses the environment would give.  The probe is
wrapped in a `try` whose `catch` ignores the error, so a throwing probe is an
`Except.error`. -/

/-- JS `x || y` on a nullable string: null, undefined and the empty string
all fall through to the default. -/
def jsOrStr (v : Option String) (dflt : String) : String :=
  match v with
  | some s => if s == "" then dflt else s
  | none => dflt

/-- Response of the destination existence probe (`fetch(selfFileURL, {method:'HEAD'})`). -/
structure ProbeResp where
  ok : Bool
  etag : Option String

/-- Response of the source CDN fetch. -/
structure FetchResp where
  ok : Bool
  status : Nat
  hasBody : Bool
  contentType : Option String

/-- Response of the destination PUT, with the error body text already read
(`putResp.text().catch(() => '')`). -/
structure PutResp where
  ok : Bool
  text : String
  statusText : String

/-- The environment of one synchronization attempt. -/
structure SyncWorld where
  probe : Except Unit ProbeResp
  source : FetchResp
  put : PutResp

/-- The network stages a synchronization attempt can perform. -/
inductive SyncStage where
  | probe
  | fetch
  | upload
deriving DecidableEq

/-- The terminal outcome of one synchronization attempt. -/
inductive SyncOutcome where
  | already (hash : Option String) (key : String)
  | fetchFailed (status : Nat)
  | uploaded (key : String)
  | uploadFailed (detail : String)
deriving DecidableEq

/-- HTTP status the handler attaches to each terminal outcome. -/
def syncStatus : SyncOutcome → Nat
  | SyncOutcome.already _ _ => 200
  | SyncOutcome.fetchFailed _ => 500
  | SyncOutcome.uploaded _ => 200
  | SyncOutcome.uploadFailed _ => 500

/-- Models `etag.replace(/"/g, '').split('.')[0] || undefined` from `api/sync.js`:
strip double quotes, take the segment before the first dot, and coerce an
empty result to `undefined`. -/
def etagHash (etag : String) : Option String :=
  let stripped := etag.data.filter (fun c => c != '"')
  let first := stripped.takeWhile (fun c => c != '.')
  if first.isEmpty then none else some (String.mk first)

/-- The chosen upload content type:
`source.headers.get('content-type') || guessContentTypeByKey(key)`. -/
def uploadContentType (srcCT : Option String) (key : String) : String :=
  jsOrStr srcCT (guessContentTypeByKey key)

/-- The upload request the synchronizer issues: URL, COS authorization, the
header map handed to the signer, and the headers sent with the PUT. -/
structure PutRequest where
  url : String
  authorization : String
  signedHeaders : List (String × Option String)
  headers : List (String × String)
deriving DecidableEq

/-- Construction of the PUT request from `api/sync.js` (`// 3) 上传到 COS`). -/
def buildUpload (SH : List Nat → List Nat) (H1 : List Nat → List Nat → List Nat)
    (bucket region secretId secretKey name version key contentType : String)
    (now : Nat) : PutRequest :=
  let uploadKey := name ++ "/" ++ version ++ "/" ++ key
  let cosHost := bucket ++ ".cos." ++ region ++ ".myqcloud.com"
  let pathname := "/" ++ uploadKey
  let headersToSign := [("Host", some cosHost), ("Content-Type", some contentType)]
  let authorization :=
    buildCOSAuth SH H1 secretId secretKey "PUT" pathname headersToSign [] now
  { url := "https://" ++ cosHost ++ pathname
    authorization := authorization
    signedHeaders := headersToSign
    headers := [("Authorization", authorization), ("Host", cosHost),
      ("Content-Type", contentType), ("Content-Disposition", "inline")] }

/-- Stages 2 and 3 of the synchronizer (source fetch, then upload), reached
when the probe did not report an existing object. -/
def syncAfterProbe (SH : List Nat → List Nat) (H1 : List Nat → List Nat → List Nat)
    (bucket region secretId secretKey : String) (w : SyncWorld)
    (name version key : String) (now : Nat) :
    SyncOutcome × List SyncStage × Option PutRequest :=
  if !w.source.ok || !w.source.hasBody then
    (SyncOutcome.fetchFailed w.source.status, [SyncStage.probe, SyncStage.fetch], none)
  else
    let contentType := uploadContentType w.source.contentType key
    let req := buildUpload SH H1 bucket region secretId secretKey name version key
      contentType now
    if w.put.ok then
      (SyncOutcome.uploaded (name ++ "/" ++ version ++ "/" ++ key),
        [SyncStage.probe, SyncStage.fetch, SyncStage.upload], some req)
    else
      (SyncOutcome.uploadFailed (jsOrStr (some w.put.text) w.put.statusText),
        [SyncStage.probe, SyncStage.fetch, SyncStage.upload], some req)

/-- The synchronizer state machine of `api/sync.js` `onRequest` after input
validation: probe, then fetch, then upload, with the list of stages performed
and the upload request (when one is issued). -/
def syncRun (SH : List Nat → List Nat) (H1 : List Nat → List Nat → List Nat)
    (bucket region secretId secretKey : String) (w : SyncWorld)
    (name version key : String) (now : Nat) :
    SyncOutcome × List SyncStage × Option PutRequest :=
  match w.probe with
  | Except.ok r =>
    if r.ok then
      (SyncOutcome.already (etagHash (jsOrStr r.etag ""))
        (name ++ "/" ++ version ++ "/" ++ key), [SyncStage.probe], none)
    else
      syncAfterProbe SH H1 bucket region secretId secretKey w name version key now
  | Except.error _ =>
    syncAfterProbe SH H1 bucket region secretId secretKey w name version key now

/-- The probe did not report success: it threw, or answered non-ok. -/
def probeMissed (w : SyncWorld) : Bool :=
  match w.probe with
  | Except.ok r => !r.ok
  | Except.error _ => true

theorem syncAfterProbe_stages (SH : List Nat → List Nat)
    (H1 : List Nat → List Nat → List Nat) (bucket region secretId secretKey : String)
    (w : SyncWorld) (name version key : String) (now : Nat) :
    (syncAfterProbe SH H1 bucket region secretId secretKey w name version key now).2.1 =
        [SyncStage.probe, SyncStage.fetch] ∨
    (syncAfterProbe SH H1 bucket region secretId secretKey w name version key now).2.1 =
        [SyncStage.probe, SyncStage.fetch, SyncStage.upload] := by
  unfold syncAfterProbe
  split
  · exact Or.inl rfl
  · split
    · exact Or.inr rfl
    · exact Or.inr rfl

/-- C6: the synchronizer reaches one terminal outcome in the fixed order
probe, fetch, upload: a successful probe returns the already-mirrored
outcome with the fingerprint taken from the etag (quotes stripped, segment
before the first dot) and performs no fetch and no upload; a probe error or
not-found leads to a source fetch; a fetch that is not successful or has no
body returns the fetch-stage failure with the upstream status and performs
no upload; and the performed stages are always a prefix of
probe-fetch-upload. -/
theorem c6_sync_state_machine (SH : List Nat → List Nat)
    (H1 : List Nat → List Nat → List Nat) (bucket region secretId secretKey : String)
    (w : SyncWorld) (name version key : String) (now : Nat) :
    (∀ r, w.probe = Except.ok r → r.ok = true →
      syncRun SH H1 bucket region secretId secretKey w name version key now =
        (SyncOutcome.already (etagHash (jsOrStr r.etag ""))
          (name ++ "/" ++ version ++ "/" ++ key), [SyncStage.probe], none)) ∧
    (probeMissed w = true →
      SyncStage.fetch ∈
        (syncRun SH H1 bucket region secretId secretKey w name version key now).2.1) ∧
    (probeMissed w = true → (w.source.ok = false ∨ w.source.hasBody = false) →
      syncRun SH H1 bucket region secretId secretKey w name version key now =
        (SyncOutcome.fetchFailed w.source.status,
          [SyncStage.probe, SyncStage.fetch], none)) ∧
    ((syncRun SH H1 bucket region secretId secretKey w name version key now).2.1 =
        [SyncStage.probe] ∨
     (syncRun SH H1 bucket region secretId secretKey w name version key now).2.1 =
        [SyncStage.probe, SyncStage.fetch] ∨
     (syncRun SH H1 bucket region secretId secretKey w name version key now).2.1 =
        [SyncStage.probe, SyncStage.fetch, SyncStage.upload]) := by
  refine ⟨?_, ?_, ?_, ?_⟩
  · intro r hpr hok
    simp [syncRun, hpr, hok]
  · intro hm
    have hrun : syncRun SH H1 bucket region secretId secretKey w name version key now =
        syncAfterProbe SH H1 bucket region secretId secretKey w name version key now := by
      unfold syncRun
      cases hpr : w.probe with
      | ok r =>
        have hr : r.ok = false := by
          simpa [probeMissed, hpr] using hm
        simp [hr]
      | error e => rfl
    rw [hrun]
    rcases syncAfterProbe_stages SH H1 bucket region secretId secretKey w name version
        key now with h | h <;> rw [h] <;> simp
  · intro hm hbad
    have hrun : syncRun SH H1 bucket region secretId secretKey w name version key now =
        syncAfterProbe SH H1 bucket region secretId secretKey w name version key now := by
      unfold syncRun
      cases hpr : w.probe with
      | ok r =>
        have hr : r.ok = false := by
          simpa [probeMissed, hpr] using hm
        simp [hr]
      | error e => rfl
    rw [hrun]
    unfold syncAfterProbe
    have hcond : (!w.source.ok || !w.source.hasBody) = true := by
      rcases hbad with h | h <;> simp [h]
    rw [if_pos hcond]
  · unfold syncRun
    cases hpr : w.probe with
    | ok r =>
      by_cases hr : r.ok
      · simp [hr]
      · simp only [hr, if_neg, Bool.false_eq_true, not_false_eq_true, if_false]
        rcases syncAfterProbe_stages SH H1 bucket region secretId secretKey w name
            version key now with h | h <;> simp [h]
    | error e =>
      rcases syncAfterProbe_stages SH H1 bucket region secretId secretKey w name
          version key now with h | h <;> simp [h]

/-- Identity byte transform, a concrete stand-in for the SHA-1/SHA-256
primitive in witnesses. -/
def idHash (bs : List Nat) : List Nat := bs

/-- Concrete keyed transform, a stand-in for the HMAC primitives in
witnesses. -/
def concatMac (k m : List Nat) : List Nat := k ++ m

theorem c6_sync_state_machine_witness :
    syncRun idHash concatMac "b" "ap-x" "id" "sec"
        ⟨Except.ok ⟨true, some "\"abc.def\""⟩, ⟨true, 200, true, none⟩, ⟨true, "", "OK"⟩⟩
        "jquery" "3.6.0" "jquery.min.js" 0 =
      (SyncOutcome.already (some "abc") "jquery/3.6.0/jquery.min.js",
        [SyncStage.probe], none) ∧
    syncRun idHash concatMac "b" "ap-x" "id" "sec"
        ⟨Except.error (), ⟨false, 503, false, none⟩, ⟨true, "", "OK"⟩⟩
        "jquery" "3.6.0" "jquery.min.js" 0 =
      (SyncOutcome.fetchFailed 503, [SyncStage.probe, SyncStage.fetch], none) := by
  constructor
  · have h := (c6_sync_state_machine idHash concatMac "b" "ap-x" "id" "sec"
      ⟨Except.ok ⟨true, some "\"abc.def\""⟩, ⟨true, 200, true, none⟩, ⟨true, "", "OK"⟩⟩
      "jquery" "3.6.0" "jquery.min.js" 0).1 ⟨true, some "\"abc.def\""⟩ rfl rfl
    rw [h]
    decide
  · have h := (c6_sync_state_machine idHash concatMac "b" "ap-x" "id" "sec"
      ⟨Except.error (), ⟨false, 503, false, none⟩, ⟨true, "", "OK"⟩⟩
      "jquery" "3.6.0" "jquery.min.js" 0).2.2.1 rfl (Or.inl rfl)
    exact h

/-- JSON string escaping as performed by `JSON.stringify` on the characters
that can occur in the handler output (quote, backslash and the common
control characters). -/
def jsonEscChar (c : Char) : List Char :=
  if c == '"' then ['\\', '"']
  else if c == '\\' then ['\\', '\\']
  else if c == '\n' then ['\\', 'n']
  else if c == '\r' then ['\\', 'r']
  else if c == '\t' then ['\\', 't']
  else [c]

/-- JSON escaping of a full string. -/
def jsonEscape (s : String) : String :=
  String.mk ((s.data.map jsonEscChar).flatten)

/-- Models `JSON.stringify({ code: 200, data: { hash, key }, msg: 'ok' })` from the
probe-success branch of `api/sync.js`: `JSON.stringify` omits a property
whose value is `undefined`, so a `none` hash leaves no `hash` member. -/
def syncSuccessJson (hash : Option String) (key : String) : String :=
  "\x7b\"code\":200,\"data\":\x7b" ++
    (match hash with
     | some h => "\"hash\":\"" ++ jsonEscape h ++ "\","
     | none => "") ++
    "\"key\":\"" ++ jsonEscape key ++ "\"\x7d,\"msg\":\"ok\"\x7d"

/-- C10: when the probe succeeds but the response has no etag, or an etag
that is empty once quotes are stripped, the synchronizer still returns the
already-mirrored success with status 200, a `none` hash whose serialized
JSON therefore carries no `hash` member, and the deterministic
`name/version/key` path. -/
theorem c10_empty_etag_success (SH : List Nat → List Nat)
    (H1 : List Nat → List Nat → List Nat) (bucket region secretId secretKey : String)
    (w : SyncWorld) (name version key : String) (now : Nat) (r : ProbeResp)
    (hpr : w.probe = Except.ok r) (hok : r.ok = true)
    (hempty : r.etag = none ∨ (jsOrStr r.etag "").data.filter (fun c => c != '"') = []) :
    syncRun SH H1 bucket region secretId secretKey w name version key now =
      (SyncOutcome.already none (name ++ "/" ++ version ++ "/" ++ key),
        [SyncStage.probe], none) ∧
    syncStatus (syncRun SH H1 bucket region secretId secretKey w name version key
        now).1 = 200 ∧
    syncSuccessJson none (name ++ "/" ++ version ++ "/" ++ key) =
      "\x7b\"code\":200,\"data\":\x7b\"key\":\"" ++
        jsonEscape (name ++ "/" ++ version ++ "/" ++ key) ++
        "\"\x7d,\"msg\":\"ok\"\x7d" := by
  have hstrip : (jsOrStr r.etag "").data.filter (fun c => c != '"') = [] := by
    rcases hempty with h | h
    · simp [h, jsOrStr]
    · exact h
  have hhash : etagHash (jsOrStr r.etag "") = none := by
    unfold etagHash
    simp [hstrip]
  have hrun : syncRun SH H1 bucket region secretId secretKey w name version key now =
      (SyncOutcome.already none (name ++ "/" ++ version ++ "/" ++ key),
        [SyncStage.probe], none) := by
    simp [syncRun, hpr, hok, hhash]
  refine ⟨hrun, ?_, ?_⟩
  · rw [hrun]
    rfl
  · simp [syncSuccessJson, String.append_assoc]

theorem c10_empty_etag_success_witness :
    syncRun idHash concatMac "b" "ap-x" "id" "sec"
        ⟨Except.ok ⟨true, some "\"\""⟩, ⟨true, 200, true, none⟩, ⟨true, "", "OK"⟩⟩
        "jquery" "3.6.0" "jquery.min.js" 0 =
      (SyncOutcome.already none "jquery/3.6.0/jquery.min.js",
        [SyncStage.probe], none) ∧
    syncSuccessJson none "jquery/3.6.0/jquery.min.js" =
      "\x7b\"code\":200,\"data\":\x7b\"key\":\"jquery/3.6.0/jquery.min.js\"\x7d,\"msg\":\"ok\"\x7d" := by
  have h := c10_empty_etag_success idHash concatMac "b" "ap-x" "id" "sec"
    ⟨Except.ok ⟨true, some "\"\""⟩, ⟨true, 200, true, none⟩, ⟨true, "", "OK"⟩⟩
    "jquery" "3.6.0" "jquery.min.js" 0 ⟨true, some "\"\""⟩ rfl rfl (Or.inr (by decide))
  refine ⟨?_, ?_⟩
  · rw [h.1]
    decide
  · decide

/-- The asset key ends (case-insensitively) with one of the extensions of the
fixed extension-to-MIME table in `guessContentTypeByKey`. -/
def hasKnownExt (key : String) : Bool :=
  let lower := lowerStr key
  strEndsWith lower ".js" || strEndsWith lower ".mjs" || strEndsWith lower ".cjs" ||
    strEndsWith lower ".css" || strEndsWith lower ".json" || strEndsWith lower ".map" ||
    strEndsWith lower ".svg" || strEndsWith lower ".png" || strEndsWith lower ".jpg" ||
    strEndsWith lower ".jpeg" || strEndsWith lower ".gif" || strEndsWith lower ".webp" ||
    strEndsWith lower ".woff" || strEndsWith lower ".woff2"

/-- C7 as stated is false at a present-but-empty content-type header: the
source uses JS truthiness (`||`), so a declared empty `content-type` is
ignored and the type is inferred from the key extension instead of being the
declared (empty) value. -/
theorem c7_upload_content_type_counterexample :
    uploadContentType (some "") "a.js" = "application/javascript; charset=utf-8" ∧
    uploadContentType (some "") "a.js" ≠ "" := by
  constructor
  · decide
  · decide

/-- C7 amended: the upload content type is the source response's declared
content-type header when present and non-empty; an absent or empty header
falls back to inference from the key's extension (matched case-insensitively)
through the fixed table, a `.js` key giving
`application/javascript; charset=utf-8` and an unrecognized extension giving
`application/octet-stream`; and the chosen type is both handed to the signer
and sent as the Content-Type header of the upload PUT. -/
theorem c7_upload_content_type (SH : List Nat → List Nat)
    (H1 : List Nat → List Nat → List Nat)
    (bucket region secretId secretKey name version key : String) (now : Nat)
    (srcCT : Option String) :
    (∀ v, srcCT = some v → v ≠ "" → uploadContentType srcCT key = v) ∧
    (srcCT = none → uploadContentType srcCT key = guessContentTypeByKey key) ∧
    (srcCT = some "" → uploadContentType srcCT key = guessContentTypeByKey key) ∧
    (strEndsWith (lowerStr key) ".js" = true →
      guessContentTypeByKey key = "application/javascript; charset=utf-8") ∧
    (hasKnownExt key = false →
      guessContentTypeByKey key = "application/octet-stream") ∧
    (buildUpload SH H1 bucket region secretId secretKey name version key
        (uploadContentType srcCT key) now).signedHeaders =
      [("Host", some (bucket ++ ".cos." ++ region ++ ".myqcloud.com")),
        ("Content-Type", some (uploadContentType srcCT key))] ∧
    mapGet (buildUpload SH H1 bucket region secretId secretKey name version key
        (uploadContentType srcCT key) now).headers "Content-Type" =
      some (uploadContentType srcCT key) ∧
    (∀ w : SyncWorld, probeMissed w = true → w.source.ok = true →
      w.source.hasBody = true →
      (syncRun SH H1 bucket region secretId secretKey w name version key now).2.2 =
        some (buildUpload SH H1 bucket region secretId secretKey name version key
          (uploadContentType w.source.contentType key) now)) := by
  refine ⟨?_, ?_, ?_, ?_, ?_, ?_, ?_, ?_⟩
  · intro v hv hne
    subst hv
    simp [uploadContentType, jsOrStr, hne]
  · intro hv
    subst hv
    rfl
  · intro hv
    subst hv
    rfl
  · intro hjs
    simp [guessContentTypeByKey, hjs]
  · intro hno
    simp only [hasKnownExt, Bool.or_eq_false_iff] at hno
    obtain ⟨⟨⟨⟨⟨⟨⟨⟨⟨⟨⟨⟨⟨h1, h2⟩, h3⟩, h4⟩, h5⟩, h6⟩, h7⟩, h8⟩, h9⟩, h10⟩, h11⟩,
      h12⟩, h13⟩, h14⟩ := hno
    simp [guessContentTypeByKey, h1, h2, h3, h4, h5, h6, h7, h8, h9, h10, h11, h12,
      h13, h14]
  · rfl
  · rfl
  · intro w hm hok hbody
    have hrun : syncRun SH H1 bucket region secretId secretKey w name version key now =
        syncAfterProbe SH H1 bucket region secretId secretKey w name version key now := by
      unfold syncRun
      cases hpr : w.probe with
      | ok r =>
        have hr : r.ok = false := by
          simpa [probeMissed, hpr] using hm
        simp [hr]
      | error e => rfl
    rw [hrun]
    unfold syncAfterProbe
    rw [if_neg (by simp [hok, hbody])]
    unfold uploadContentType
    split <;> rfl

theorem c7_upload_content_type_witness :
    uploadContentType (some "text/plain") "jquery.min.js" = "text/plain" ∧
    uploadContentType none "jquery.min.js" = guessContentTypeByKey "jquery.min.js" ∧
    guessContentTypeByKey "jquery.min.js" = "application/javascript; charset=utf-8" ∧
    guessContentTypeByKey "file.xyz" = "application/octet-stream" := by
  refine ⟨?_, ?_, ?_, ?_⟩
  · exact (c7_upload_content_type idHash concatMac "b" "ap-x" "id" "sec" "jquery"
      "3.6.0" "jquery.min.js" 0 (some "text/plain")).1 "text/plain" rfl (by decide)
  · exact (c7_upload_content_type idHash concatMac "b" "ap-x" "id" "sec" "jquery"
      "3.6.0" "jquery.min.js" 0 none).2.1 rfl
  · exact (c7_upload_content_type idHash concatMac "b" "ap-x" "id" "sec" "jquery"
      "3.6.0" "jquery.min.js" 0 none).2.2.2.1 (by decide)
  · exact (c7_upload_content_type idHash concatMac "b" "ap-x" "id" "sec" "jquery"
      "3.6.0" "file.xyz" 0 none).2.2.2.2.1 (by decide)

/-! ## `api/num.js`: response handling and post-processing -/

/-- One entry of a result row's `DetailData` breakdown list. -/
structure DetailEntry where
  key : String
  value : Int
deriving DecidableEq

/-- One result row of the metrics response: the `TypeKey` bookkeeping field
(absent when the row has no such own property), the `DetailData` breakdown
list (`none` when the field is not an array), and the remaining fields. -/
structure NumItem where
  typeKey : Option String
  detailData : Option (List DetailEntry)
  extra : List (String × Int)
deriving DecidableEq

/-- The per-row post-processing of `api/num.js`: delete `TypeKey` when the
row has it, and filter out `DetailData` entries whose `Key` is `"/"` when
`DetailData` is an array. -/
def processItem (item : NumItem) : NumItem :=
  let item1 := if item.typeKey.isSome then { item with typeKey := none } else item
  match item1.detailData with
  | some l => { item1 with detailData := some (l.filter (fun d => d.key != "/")) }
  | none => item1

/-- Models `if (data?.Data && Array.isArray(data.Data)) data.Data = data.Data.map(...)`. -/
def processNumData (data : Option (List NumItem)) : Option (List NumItem) :=
  match data with
  | some items => some (items.map processItem)
  | none => none

/-- Spec-side rendering of C9: the bookkeeping field is removed from every
row, every breakdown entry keyed by the sentinel `"/"` is removed, and
everything else passes through unchanged. -/
def processItemSpec (item : NumItem) : NumItem :=
  { typeKey := none
    detailData := item.detailData.map (fun l => l.filter (fun d => d.key != "/"))
    extra := item.extra }

/-- The provider error envelope `Response.Error`. -/
structure ApiErr where
  code : String
  message : String
deriving DecidableEq

/-- The parsed `Response` member of the metrics reply body. -/
structure NumResp where
  error : Option ApiErr
  data : Option (List NumItem)
deriving DecidableEq

/-- The parsed JSON body of the metrics reply. -/
structure NumBody where
  response : Option NumResp
deriving DecidableEq

/-- The handler's outgoing reply: an error payload with HTTP 500, or the
post-processed `Response` with HTTP 200. -/
inductive NumReply where
  | failure (status : Nat)
  | success (status : Nat) (data : Option NumResp)
deriving DecidableEq

/-- The reply is the error branch. -/
def isFailureReply : NumReply → Bool
  | NumReply.failure _ => true
  | NumReply.success _ _ => false

/-- HTTP status of the reply. -/
def replyStatus : NumReply → Nat
  | NumReply.failure s => s
  | NumReply.success s _ => s

/-- The response-handling branch of `api/num.js` `onRequest`:
`if (!resp.ok || json?.Response?.Error)` return a 500 error reply, else
post-process `Response.Data` and return it with 200. -/
def numHandle (ok : Bool) (body : NumBody) : NumReply :=
  if !ok || (body.response.bind (fun r => r.error)).isSome then
    NumReply.failure 500
  else
    NumReply.success 200
      (body.response.map (fun r => { r with data := processNumData r.data }))

/-- C8: the metrics endpoint returns the failure reply (HTTP 500) exactly
when the transport status is non-success or the body carries a populated
`Response.Error` envelope — in particular a populated envelope under HTTP
200 is a failure — and the success reply (HTTP 200) only when the status is
success and no envelope is present. -/
theorem c8_error_envelope_is_failure (ok : Bool) (body : NumBody) :
    (isFailureReply (numHandle ok body) = true ↔
      (ok = false ∨ (body.response.bind (fun r => r.error)).isSome = true)) ∧
    replyStatus (numHandle ok body) =
      (if isFailureReply (numHandle ok body) then 500 else 200) ∧
    (∀ e d, numHandle true ⟨some ⟨some e, d⟩⟩ = NumReply.failure 500) ∧
    (isFailureReply (numHandle ok body) = false →
      ok = true ∧ body.response.bind (fun r => r.error) = none) := by
  refine ⟨?_, ?_, ?_, ?_⟩
  · unfold numHandle
    by_cases hok : ok <;> by_cases herr : (body.response.bind (fun r => r.error)).isSome <;>
      simp [hok, herr, isFailureReply]
  · unfold numHandle
    by_cases hok : ok <;> by_cases herr : (body.response.bind (fun r => r.error)).isSome <;>
      simp [hok, herr, isFailureReply, replyStatus]
  · intro e d
    simp [numHandle]
  · unfold numHandle
    by_cases hok : ok <;> by_cases herr : (body.response.bind (fun r => r.error)).isSome <;>
      simp [hok, herr, isFailureReply] <;>
      simpa [Option.isSome_iff_ne_none] using herr

theorem c8_error_envelope_is_failure_witness :
    isFailureReply (numHandle true ⟨some ⟨some ⟨"AuthFailure", "bad"⟩, none⟩⟩) = true ∧
    numHandle true ⟨some ⟨some ⟨"AuthFailure", "bad"⟩, none⟩⟩ = NumReply.failure 500 ∧
    isFailureReply (numHandle true ⟨some ⟨none, none⟩⟩) = false := by
  refine ⟨?_, ?_, ?_⟩
  · exact (c8_error_envelope_is_failure true ⟨some ⟨some ⟨"AuthFailure", "bad"⟩, none⟩⟩).1.mpr
      (Or.inr (by decide))
  · exact (c8_error_envelope_is_failure true ⟨some ⟨some ⟨"AuthFailure", "bad"⟩, none⟩⟩).2.2.1
      ⟨"AuthFailure", "bad"⟩ none
  · decide

/-- C9: post-processing removes `TypeKey` from every row that has it, removes
every `DetailData` entry keyed `"/"`, keeps rows without the field and
entries with other keys unchanged, and maps every row of a present `Data`
array. -/
theorem c9_post_processing (item : NumItem) (items : List NumItem) :
    processItem item = processItemSpec item ∧
    (processItem item).typeKey = none ∧
    (processItem item).extra = item.extra ∧
    (∀ l, item.detailData = some l →
      (processItem item).detailData = some (l.filter (fun d => d.key != "/")) ∧
      ∀ d ∈ l, d.key ≠ "/" → d ∈ l.filter (fun d => d.key != "/")) ∧
    processNumData (some items) = some (items.map processItem) := by
  have hmain : processItem item = processItemSpec item := by
    obtain ⟨tk, dd, ex⟩ := item
    cases tk <;> cases dd <;> simp [processItem, processItemSpec]
  refine ⟨hmain, ?_, ?_, ?_, rfl⟩
  · rw [hmain]
    rfl
  · rw [hmain]
    rfl
  · intro l hl
    constructor
    · rw [hmain]
      simp [processItemSpec, hl]
    · intro d hd hne
      simp [List.mem_filter, hd, hne]

theorem c9_post_processing_witness :
    processItem ⟨some "l7Flow_request_url", some [⟨"/", 5⟩, ⟨"/index.html", 3⟩],
        [("Value", 8)]⟩ =
      ⟨none, some [⟨"/index.html", 3⟩], [("Value", 8)]⟩ ∧
    processNumData (some [⟨some "l7Flow_request_url", some [⟨"/", 5⟩], []⟩]) =
      some [⟨none, some [], []⟩] := by
  constructor
  · have h := (c9_post_processing ⟨some "l7Flow_request_url",
      some [⟨"/", 5⟩, ⟨"/index.html", 3⟩], [("Value", 8)]⟩ []).1
    rw [h]
    decide
  · have h := (c9_post_processing ⟨none, none, []⟩
      [⟨some "l7Flow_request_url", some [⟨"/", 5⟩], []⟩]).2.2.2.2
    rw [h]
    decide

/-! ## C4: only `host` and `content-type` influence the COS signature -/

/-- The body of `buildCOSAuth` as a function of the already-normalized header
map; `buildCOSAuth` is definitionally this applied to `normalizeHeaders`. -/
def cosAuthOverMap (SH : List Nat → List Nat) (H1 : List Nat → List Nat → List Nat)
    (secretId secretKey method pathname : String) (m : List (String × String))
    (params : List String) (now : Nat) : String :=
  let signTime := cosSignTime now
  let keyTime := signTime
  let urlParamList := jsJoin ";" (sortStrings (params.map lowerStr))
  let headerList := jsJoin ";" (cosHeaderKeysSorted m)
  let signature := cosSignature SH H1 secretKey method pathname m now
  "q-sign-algorithm=sha1&q-ak=" ++ encodeURIComponent secretId ++ "&q-sign-time=" ++
    signTime ++ "&q-key-time=" ++ keyTime ++ "&q-header-list=" ++ headerList ++
    "&q-url-param-list=" ++ urlParamList ++ "&q-signature=" ++ signature

theorem buildCOSAuth_overMap (SH : List Nat → List Nat)
    (H1 : List Nat → List Nat → List Nat) (secretId secretKey method pathname : String)
    (headers : List (String × Option String)) (params : List String) (now : Nat) :
    buildCOSAuth SH H1 secretId secretKey method pathname headers params now =
      cosAuthOverMap SH H1 secretId secretKey method pathname
        (normalizeHeaders headers) params now := rfl

/-- The shapes the normalized header map can take: at most one `host` entry
and at most one `content-type` entry, in either insertion order. -/
def HeaderMapShape (m : List (String × String)) : Prop :=
  m = [] ∨ (∃ v, m = [("host", v)]) ∨ (∃ v, m = [("content-type", v)]) ∨
    (∃ a b, m = [("host", a), ("content-type", b)]) ∨
    (∃ a b, m = [("content-type", a), ("host", b)])

theorem mapSet_shape (m : List (String × String)) (k v : String)
    (hm : HeaderMapShape m) (hk : k = "host" ∨ k = "content-type") :
    HeaderMapShape (mapSet m k v) := by
  rcases hm with rfl | ⟨v0, rfl⟩ | ⟨v0, rfl⟩ | ⟨a, b, rfl⟩ | ⟨a, b, rfl⟩ <;>
    rcases hk with rfl | rfl
  · exact Or.inr (Or.inl ⟨v, rfl⟩)
  · exact Or.inr (Or.inr (Or.inl ⟨v, rfl⟩))
  · exact Or.inr (Or.inl ⟨v, rfl⟩)
  · exact Or.inr (Or.inr (Or.inr (Or.inl ⟨v0, v, rfl⟩)))
  · exact Or.inr (Or.inr (Or.inr (Or.inr ⟨v0, v, rfl⟩)))
  · exact Or.inr (Or.inr (Or.inl ⟨v, rfl⟩))
  · exact Or.inr (Or.inr (Or.inr (Or.inl ⟨v, b, rfl⟩)))
  · exact Or.inr (Or.inr (Or.inr (Or.inl ⟨a, v, rfl⟩)))
  · exact Or.inr (Or.inr (Or.inr (Or.inr ⟨a, v, rfl⟩)))
  · exact Or.inr (Or.inr (Or.inr (Or.inr ⟨v, b, rfl⟩)))

theorem normStep_shape (m : List (String × String)) (kv : String × Option String)
    (hm : HeaderMapShape m) : HeaderMapShape (normStep m kv) := by
  unfold normStep
  cases kv.2 with
  | none => exact hm
  | some v =>
    by_cases hcond : (lowerStr kv.1 == "host" || lowerStr kv.1 == "content-type") = true
    · simp only [hcond, if_true]
      refine mapSet_shape _ _ _ hm ?_
      rcases Bool.or_eq_true_iff.mp hcond with h | h
      · exact Or.inl (by simpa using h)
      · exact Or.inr (by simpa using h)
    · simp only [Bool.not_eq_true] at hcond
      simp only [hcond, if_false]
      exact hm

theorem foldl_normStep_shape (hs : List (String × Option String))
    (m : List (String × String)) (hm : HeaderMapShape m) :
    HeaderMapShape (hs.foldl normStep m) := by
  induction hs generalizing m with
  | nil => exact hm
  | cons kv t ih => exact ih _ (normStep_shape m kv hm)

theorem normalizeHeaders_shape (hs : List (String × Option String)) :
    HeaderMapShape (normalizeHeaders hs) :=
  foldl_normStep_shape hs [] (Or.inl rfl)

theorem cosAuthOverMap_lookup_congr (SH : List Nat → List Nat)
    (H1 : List Nat → List Nat → List Nat) (secretId secretKey method pathname : String)
    (params : List String) (now : Nat) (m1 m2 : List (String × String))
    (s1 : HeaderMapShape m1) (s2 : HeaderMapShape m2)
    (hh : mapGet m1 "host" = mapGet m2 "host")
    (hc : mapGet m1 "content-type" = mapGet m2 "content-type") :
    cosAuthOverMap SH H1 secretId secretKey method pathname m1 params now =
      cosAuthOverMap SH H1 secretId secretKey method pathname m2 params now := by
  rcases s1 with rfl | ⟨v1, rfl⟩ | ⟨v1, rfl⟩ | ⟨a1, b1, rfl⟩ | ⟨a1, b1, rfl⟩ <;>
    rcases s2 with rfl | ⟨v2, rfl⟩ | ⟨v2, rfl⟩ | ⟨a2, b2, rfl⟩ | ⟨a2, b2, rfl⟩ <;>
    simp only [mapGet, List.find?, List.find?_nil, List.find?_cons] at hh hc <;>
    simp_all <;> rfl

/-- C4: two header maps that agree on the (case-insensitively keyed,
value-trimmed) `host` and `content-type` entries produce the same
authorization value whatever their other headers are — unsigned headers are
dropped and never influence the signature or the header list. -/
theorem c4_unsigned_headers_irrelevant (SH : List Nat → List Nat)
    (H1 : List Nat → List Nat → List Nat) (secretId secretKey method pathname : String)
    (params : List String) (now : Nat) (h1 h2 : List (String × Option String))
    (hh : mapGet (normalizeHeaders h1) "host" = mapGet (normalizeHeaders h2) "host")
    (hc : mapGet (normalizeHeaders h1) "content-type" =
      mapGet (normalizeHeaders h2) "content-type") :
    buildCOSAuth SH H1 secretId secretKey method pathname h1 params now =
      buildCOSAuth SH H1 secretId secretKey method pathname h2 params now := by
  rw [buildCOSAuth_overMap, buildCOSAuth_overMap]
  exact cosAuthOverMap_lookup_congr SH H1 secretId secretKey method pathname params now
    (normalizeHeaders h1) (normalizeHeaders h2)
    (normalizeHeaders_shape h1) (normalizeHeaders_shape h2) hh hc

theorem c4_unsigned_headers_irrelevant_witness :
    mapGet (normalizeHeaders [("Host", some " cdn.example.com "), ("X-Extra", some "1")])
        "host" =
      mapGet (normalizeHeaders [("host", some "cdn.example.com"),
        ("X-Other", some "2"), ("Accept", none)]) "host" ∧
    mapGet (normalizeHeaders [("Host", some " cdn.example.com "), ("X-Extra", some "1")])
        "content-type" =
      mapGet (normalizeHeaders [("host", some "cdn.example.com"),
        ("X-Other", some "2"), ("Accept", none)]) "content-type" ∧
    buildCOSAuth idHash concatMac "id" "sec" "PUT" "/a/b"
        [("Host", some " cdn.example.com "), ("X-Extra", some "1")] [] 1700000000 =
      buildCOSAuth idHash concatMac "id" "sec" "PUT" "/a/b"
        [("host", some "cdn.example.com"), ("X-Other", some "2"), ("Accept", none)]
        [] 1700000000 :=
  ⟨by decide, by decide,
    c4_unsigned_headers_irrelevant idHash concatMac "id" "sec" "PUT" "/a/b" [] 1700000000
      [("Host", some " cdn.example.com "), ("X-Extra", some "1")]
      [("host", some "cdn.example.com"), ("X-Other", some "2"), ("Accept", none)]
      (by decide) (by decide)⟩

/-! ## Injectivity of the byte-level encodings

These decoders exist only to prove the encodings injective; the handlers
never decode. -/

theorem char_toNat_lt (c : Char) : c.toNat < 0x110000 := by
  rcases c.valid with h | ⟨h1, h2⟩
  · exact Nat.lt_trans h (by norm_num)
  · exact h2

/-- Decoder of the UTF-8 encoding, the left inverse of `strBytes`. -/
def utf8Decode (l : List Nat) : List Char :=
  match l with
  | [] => []
  | b :: t =>
    if b < 0x80 then Char.ofNat b :: utf8Decode t
    else if b < 0xE0 then
      Char.ofNat ((b - 0xC0) * 0x40 + (t.headD 0 - 0x80)) :: utf8Decode (t.drop 1)
    else if b < 0xF0 then
      Char.ofNat ((b - 0xE0) * 0x1000 + (t.headD 0 - 0x80) * 0x40 +
        ((t.drop 1).headD 0 - 0x80)) :: utf8Decode (t.drop 2)
    else
      Char.ofNat ((b - 0xF0) * 0x40000 + (t.headD 0 - 0x80) * 0x1000 +
        ((t.drop 1).headD 0 - 0x80) * 0x40 + ((t.drop 2).headD 0 - 0x80)) ::
        utf8Decode (t.drop 3)
termination_by l.length
decreasing_by
  all_goals simp
  all_goals omega

theorem utf8Bytes_one (c : Char) (h : c.toNat < 0x80) : utf8Bytes c = [c.toNat] := by
  simp [utf8Bytes, h]

theorem utf8Bytes_two (c : Char) (h1 : ¬ c.toNat < 0x80) (h2 : c.toNat < 0x800) :
    utf8Bytes c = [0xC0 + c.toNat / 0x40, 0x80 + c.toNat % 0x40] := by
  simp [utf8Bytes, h1, h2]

theorem utf8Bytes_three (c : Char) (h2 : ¬ c.toNat < 0x800) (h3 : c.toNat < 0x10000) :
    utf8Bytes c = [0xE0 + c.toNat / 0x1000, 0x80 + c.toNat / 0x40 % 0x40,
      0x80 + c.toNat % 0x40] := by
  have h1 : ¬ c.toNat < 0x80 := by omega
  simp [utf8Bytes, h1, h2, h3]

theorem utf8Bytes_four (c : Char) (h3 : ¬ c.toNat < 0x10000) :
    utf8Bytes c = [0xF0 + c.toNat / 0x40000, 0x80 + c.toNat / 0x1000 % 0x40,
      0x80 + c.toNat / 0x40 % 0x40, 0x80 + c.toNat % 0x40] := by
  have h1 : ¬ c.toNat < 0x80 := by omega
  have h2 : ¬ c.toNat < 0x800 := by omega
  simp [utf8Bytes, h1, h2, h3]

theorem utf8Decode_nil : utf8Decode [] = [] := by
  rw [utf8Decode.eq_def]

theorem utf8Decode_cons1 (b : Nat) (t : List Nat) (h : b < 0x80) :
    utf8Decode (b :: t) = Char.ofNat b :: utf8Decode t := by
  rw [utf8Decode.eq_def]
  simp [h]

theorem utf8Decode_cons2 (b b1 : Nat) (t : List Nat) (h1 : ¬ b < 0x80) (h2 : b < 0xE0) :
    utf8Decode (b :: b1 :: t) =
      Char.ofNat ((b - 0xC0) * 0x40 + (b1 - 0x80)) :: utf8Decode t := by
  rw [utf8Decode.eq_def]
  simp [h1, h2]

theorem utf8Decode_cons3 (b b1 b2 : Nat) (t : List Nat) (h2 : ¬ b < 0xE0)
    (h3 : b < 0xF0) :
    utf8Decode (b :: b1 :: b2 :: t) =
      Char.ofNat ((b - 0xE0) * 0x1000 + (b1 - 0x80) * 0x40 + (b2 - 0x80)) ::
        utf8Decode t := by
  have h1 : ¬ b < 0x80 := by omega
  rw [utf8Decode.eq_def]
  simp [h1, h2, h3]

theorem utf8Decode_cons4 (b b1 b2 b3 : Nat) (t : List Nat) (h3 : ¬ b < 0xF0) :
    utf8Decode (b :: b1 :: b2 :: b3 :: t) =
      Char.ofNat ((b - 0xF0) * 0x40000 + (b1 - 0x80) * 0x1000 + (b2 - 0x80) * 0x40 +
        (b3 - 0x80)) :: utf8Decode t := by
  have h1 : ¬ b < 0x80 := by omega
  have h2 : ¬ b < 0xE0 := by omega
  rw [utf8Decode.eq_def]
  simp [h1, h2, h3]

theorem utf8Decode_utf8Bytes (c : Char) (t : List Nat) :
    utf8Decode (utf8Bytes c ++ t) = c :: utf8Decode t := by
  have hlt : c.toNat < 0x110000 := char_toNat_lt c
  by_cases h1 : c.toNat < 0x80
  · rw [utf8Bytes_one c h1]
    show utf8Decode (c.toNat :: t) = c :: utf8Decode t
    rw [utf8Decode_cons1 _ _ h1, Char.ofNat_toNat]
  · by_cases h2 : c.toNat < 0x800
    · rw [utf8Bytes_two c h1 h2]
      show utf8Decode (_ :: _ :: t) = c :: utf8Decode t
      rw [utf8Decode_cons2 _ _ _ (by omega) (by omega)]
      have hv : (0xC0 + c.toNat / 0x40 - 0xC0) * 0x40 + (0x80 + c.toNat % 0x40 - 0x80) =
          c.toNat := by omega
      rw [hv, Char.ofNat_toNat]
    · by_cases h3 : c.toNat < 0x10000
      · rw [utf8Bytes_three c h2 h3]
        show utf8Decode (_ :: _ :: _ :: t) = c :: utf8Decode t
        rw [utf8Decode_cons3 _ _ _ _ (by omega) (by omega)]
        have hv : (0xE0 + c.toNat / 0x1000 - 0xE0) * 0x1000 +
            (0x80 + c.toNat / 0x40 % 0x40 - 0x80) * 0x40 +
            (0x80 + c.toNat % 0x40 - 0x80) = c.toNat := by omega
        rw [hv, Char.ofNat_toNat]
      · rw [utf8Bytes_four c h3]
        show utf8Decode (_ :: _ :: _ :: _ :: t) = c :: utf8Decode t
        rw [utf8Decode_cons4 _ _ _ _ _ (by omega)]
        have hv : (0xF0 + c.toNat / 0x40000 - 0xF0) * 0x40000 +
            (0x80 + c.toNat / 0x1000 % 0x40 - 0x80) * 0x1000 +
            (0x80 + c.toNat / 0x40 % 0x40 - 0x80) * 0x40 +
            (0x80 + c.toNat % 0x40 - 0x80) = c.toNat := by omega
        rw [hv, Char.ofNat_toNat]

theorem utf8Decode_flatten (l : List Char) :
    utf8Decode ((l.map utf8Bytes).flatten) = l := by
  induction l with
  | nil => simpa using utf8Decode_nil
  | cons c t ih =>
    simp only [List.map_cons, List.flatten_cons]
    rw [utf8Decode_utf8Bytes, ih]

theorem strBytes_injective : Function.Injective strBytes := by
  intro s1 s2 h
  have h1 := congrArg utf8Decode h
  unfold strBytes at h1
  rw [utf8Decode_flatten, utf8Decode_flatten] at h1
  exact String.ext h1

theorem utf8Bytes_lt (c : Char) : ∀ b ∈ utf8Bytes c, b < 256 := by
  have hlt : c.toNat < 0x110000 := char_toNat_lt c
  intro b hb
  by_cases h1 : c.toNat < 0x80
  · rw [utf8Bytes_one c h1] at hb
    simp at hb
    omega
  · by_cases h2 : c.toNat < 0x800
    · rw [utf8Bytes_two c h1 h2] at hb
      simp at hb
      rcases hb with rfl | rfl <;> omega
    · by_cases h3 : c.toNat < 0x10000
      · rw [utf8Bytes_three c h2 h3] at hb
        simp at hb
        rcases hb with rfl | rfl | rfl <;> omega
      · rw [utf8Bytes_four c h3] at hb
        simp at hb
        rcases hb with rfl | rfl | rfl | rfl <;> omega

theorem strBytes_lt (s : String) : ∀ b ∈ strBytes s, b < 256 := by
  intro b hb
  unfold strBytes at hb
  rw [List.mem_flatten] at hb
  obtain ⟨l, hl, hbl⟩ := hb
  rw [List.mem_map] at hl
  obtain ⟨c, _, rfl⟩ := hl
  exact utf8Bytes_lt c b hbl

theorem hexVal_hexChar : ∀ x : Fin 16, hexVal (hexChar x.val) = x.val := by
  decide

theorem hexValUpper_hexCharUpper : ∀ x : Fin 16, hexValUpper (hexCharUpper x.val) = x.val := by
  decide

/-- Decoder of the two-digit-per-byte lowercase hex rendering. -/
def hexPairsDecode : List Char → List Nat
  | h :: l :: t => (hexVal h * 16 + hexVal l) :: hexPairsDecode t
  | _ => []

theorem hexPairsDecode_toHexByte (b : Nat) (hb : b < 256) (t : List Char) :
    hexPairsDecode (toHexByte b ++ t) = b :: hexPairsDecode t := by
  show hexPairsDecode (hexChar (b / 16 % 16) :: hexChar (b % 16) :: t) = _
  rw [hexPairsDecode.eq_def]
  have e1 := hexVal_hexChar ⟨b / 16 % 16, by omega⟩
  have e2 := hexVal_hexChar ⟨b % 16, by omega⟩
  simp only [] at e1 e2
  simp only [e1, e2]
  have : b / 16 % 16 * 16 + b % 16 = b := by omega
  rw [this]

theorem hexPairsDecode_toHex (bs : List Nat) (h : ∀ b ∈ bs, b < 256) :
    hexPairsDecode ((bs.map toHexByte).flatten) = bs := by
  induction bs with
  | nil => rfl
  | cons b t ih =>
    simp only [List.map_cons, List.flatten_cons]
    rw [hexPairsDecode_toHexByte b (h b (by simp)) _]
    rw [ih (fun x hx => h x (by simp [hx]))]

theorem toHex_injOn (bs1 bs2 : List Nat) (h1 : ∀ b ∈ bs1, b < 256)
    (h2 : ∀ b ∈ bs2, b < 256) (heq : toHex bs1 = toHex bs2) : bs1 = bs2 := by
  unfold toHex at heq
  have hd : (bs1.map toHexByte).flatten = (bs2.map toHexByte).flatten :=
    congrArg String.data heq
  calc bs1 = hexPairsDecode ((bs1.map toHexByte).flatten) := (hexPairsDecode_toHex bs1 h1).symm
    _ = hexPairsDecode ((bs2.map toHexByte).flatten) := by rw [hd]
    _ = bs2 := hexPairsDecode_toHex bs2 h2

/-- The composite hex-of-UTF-8 map is injective; with the identity hash this
is exactly `sha1Hex idHash` on string input. -/
theorem toHex_strBytes_injective : Function.Injective (fun s => toHex (strBytes s)) := by
  intro s1 s2 h
  exact strBytes_injective (toHex_injOn _ _ (strBytes_lt s1) (strBytes_lt s2) h)

/-- Decoder of the percent encoding, the left inverse of `encodeURIComponent`
composed with UTF-8. -/
def pctDecode : List Char → List Nat
  | [] => []
  | c :: t =>
    if c = '%' then
      match t with
      | h :: l :: t2 => (hexValUpper h * 16 + hexValUpper l) :: pctDecode t2
      | _ => []
    else c.toNat :: pctDecode t

theorem unreserved_bounds (c : Char) (h : isUnreservedChar c = true) :
    c.toNat < 0x80 ∧ c.toNat ≠ 37 ∧ c.toNat ≠ 38 := by
  unfold isUnreservedChar at h
  simp only [Bool.or_eq_true, decide_eq_true_eq, Bool.and_eq_true, beq_iff_eq] at h
  omega

theorem pctDecode_pctByte (b : Nat) (hb : b < 256) (t : List Char) :
    pctDecode (pctByte b ++ t) = b :: pctDecode t := by
  show pctDecode ('%' :: hexCharUpper (b / 16 % 16) :: hexCharUpper (b % 16) :: t) = _
  rw [pctDecode.eq_def]
  simp only [if_pos rfl]
  have e1 := hexValUpper_hexCharUpper ⟨b / 16 % 16, by omega⟩
  have e2 := hexValUpper_hexCharUpper ⟨b % 16, by omega⟩
  simp only [] at e1 e2
  rw [e1, e2]
  have : b / 16 % 16 * 16 + b % 16 = b := by omega
  rw [this]
  simp

theorem pctDecode_pctBytes (bs : List Nat) (h : ∀ b ∈ bs, b < 256) (t : List Char) :
    pctDecode ((bs.map pctByte).flatten ++ t) = bs ++ pctDecode t := by
  induction bs with
  | nil => simp
  | cons b bt ih =>
    simp only [List.map_cons, List.flatten_cons, List.append_assoc]
    rw [pctDecode_pctByte b (h b (by simp)) _]
    rw [ih (fun x hx => h x (by simp [hx]))]
    rfl

theorem hexCharUpper_ne_percent (n : Nat) : hexCharUpper n ≠ '%' := by
  unfold hexCharUpper
  split <;> decide

theorem pctDecode_encChar (c : Char) (t : List Char) :
    pctDecode (encChar c ++ t) = utf8Bytes c ++ pctDecode t := by
  unfold encChar
  by_cases hu : isUnreservedChar c = true
  · obtain ⟨hlo, hne37, _⟩ := unreserved_bounds c hu
    rw [if_pos hu]
    show pctDecode (c :: t) = _
    rw [pctDecode.eq_def]
    have hcp : ¬ c = '%' := by
      intro hc
      exact hne37 (by rw [hc]; rfl)
    simp only [if_neg hcp]
    rw [utf8Bytes_one c hlo]
    rfl
  · rw [if_neg hu]
    exact pctDecode_pctBytes (utf8Bytes c) (utf8Bytes_lt c) t

theorem pctDecode_flatten (l : List Char) :
    pctDecode ((l.map encChar).flatten) = (l.map utf8Bytes).flatten := by
  induction l with
  | nil => rfl
  | cons c t ih =>
    simp only [List.map_cons, List.flatten_cons]
    calc pctDecode (encChar c ++ (List.map encChar t).flatten)
        = utf8Bytes c ++ pctDecode ((List.map encChar t).flatten) :=
          pctDecode_encChar c _
      _ = utf8Bytes c ++ (List.map utf8Bytes t).flatten := by rw [ih]

theorem encodeURIComponent_injective : Function.Injective encodeURIComponent := by
  intro s1 s2 h
  have hd : ((s1.data.map encChar).flatten) = ((s2.data.map encChar).flatten) :=
    congrArg String.data h
  have h2 := congrArg pctDecode hd
  rw [pctDecode_flatten, pctDecode_flatten] at h2
  have h3 := congrArg utf8Decode h2
  rw [utf8Decode_flatten, utf8Decode_flatten] at h3
  exact String.ext h3

theorem encChar_ne_amp (c : Char) : ∀ ch ∈ encChar c, ch ≠ '&' := by
  intro ch hch
  unfold encChar at hch
  by_cases hu : isUnreservedChar c = true
  · rw [if_pos hu] at hch
    simp only [List.mem_singleton] at hch
    obtain ⟨_, _, hne38⟩ := unreserved_bounds c hu
    intro hc
    apply hne38
    rw [← hch, hc]
    rfl
  · rw [if_neg hu] at hch
    rw [List.mem_flatten] at hch
    obtain ⟨l, hl, hchl⟩ := hch
    rw [List.mem_map] at hl
    obtain ⟨b, _, rfl⟩ := hl
    unfold pctByte at hchl
    simp only [List.mem_cons, List.mem_singleton, List.not_mem_nil, or_false] at hchl
    rcases hchl with rfl | rfl | rfl
    · decide
    · unfold hexCharUpper
      split <;> decide
    · unfold hexCharUpper
      split <;> decide

theorem encodeURIComponent_no_amp (v : String) :
    '&' ∉ (encodeURIComponent v).data := by
  intro hmem
  unfold encodeURIComponent at hmem
  rw [List.mem_flatten] at hmem
  obtain ⟨l, hl, hml⟩ := hmem
  rw [List.mem_map] at hl
  obtain ⟨c, _, rfl⟩ := hl
  exact encChar_ne_amp c '&' hml rfl

theorem str_append_left_cancel {a b c : String} (h : a ++ b = a ++ c) : b = c := by
  apply String.ext
  have hd := congrArg String.data h
  simp only [String.data_append] at hd
  exact List.append_cancel_left hd

theorem str_append_right_cancel {a b c : String} (h : a ++ c = b ++ c) : a = b := by
  apply String.ext
  have hd := congrArg String.data h
  simp only [String.data_append] at hd
  exact List.append_cancel_right hd

theorem amp_split : ∀ (xs1 xs2 ys1 ys2 : List Char), '&' ∉ xs1 → '&' ∉ xs2 →
    xs1 ++ '&' :: ys1 = xs2 ++ '&' :: ys2 → xs1 = xs2 ∧ ys1 = ys2 := by
  intro xs1
  induction xs1 with
  | nil =>
    intro xs2 ys1 ys2 h1 h2 heq
    cases xs2 with
    | nil => simpa using heq
    | cons a t =>
      simp only [List.nil_append, List.cons_append, List.cons.injEq] at heq
      exact absurd (heq.1 ▸ List.mem_cons_self a t) h2
  | cons a t ih =>
    intro xs2 ys1 ys2 h1 h2 heq
    cases xs2 with
    | nil =>
      simp only [List.cons_append, List.nil_append, List.cons.injEq] at heq
      exact absurd (heq.1 ▸ List.mem_cons_self a t) h1
    | cons b t2 =>
      simp only [List.cons_append, List.cons.injEq] at heq
      obtain ⟨rfl, heq2⟩ := heq
      have ht1 : '&' ∉ t := fun hm => h1 (List.mem_cons_of_mem _ hm)
      have ht2 : '&' ∉ t2 := fun hm => h2 (List.mem_cons_of_mem _ hm)
      obtain ⟨rfl, rfl⟩ := ih t2 ys1 ys2 ht1 ht2 heq2
      exact ⟨rfl, rfl⟩

theorem jsJoin_two (sep a b : String) : jsJoin sep [a, b] = a ++ sep ++ b := rfl

theorem jsJoin_three (sep a b c : String) :
    jsJoin sep [a, b, c] = a ++ sep ++ (b ++ sep ++ c) := rfl

theorem jsJoin_four (sep a b c d : String) :
    jsJoin sep [a, b, c, d] = a ++ sep ++ (b ++ sep ++ (c ++ sep ++ d)) := rfl

theorem httpString_single_host_inj (method pathname a1 a2 : String)
    (h : cosHttpString method pathname [("host", a1)] =
      cosHttpString method pathname [("host", a2)]) : a1 = a2 := by
  have e : ∀ a : String, cosHttpString method pathname [("host", a)] =
      lowerStr method ++ "\n" ++ (pathname ++ "\n" ++ ("" ++ "\n" ++
        ("host" ++ "=" ++ encodeURIComponent a))) ++ "\n" := by
    intro a
    rfl
  rw [e a1, e a2] at h
  have h1 := str_append_right_cancel h
  have h2 := str_append_left_cancel h1
  have h3 := str_append_left_cancel h2
  have h4 := str_append_left_cancel h3
  exact encodeURIComponent_injective (str_append_left_cancel h4)

theorem httpString_single_ct_inj (method pathname a1 a2 : String)
    (h : cosHttpString method pathname [("content-type", a1)] =
      cosHttpString method pathname [("content-type", a2)]) : a1 = a2 := by
  have e : ∀ a : String, cosHttpString method pathname [("content-type", a)] =
      lowerStr method ++ "\n" ++ (pathname ++ "\n" ++ ("" ++ "\n" ++
        ("content-type" ++ "=" ++ encodeURIComponent a))) ++ "\n" := by
    intro a
    rfl
  rw [e a1, e a2] at h
  have h1 := str_append_right_cancel h
  have h2 := str_append_left_cancel h1
  have h3 := str_append_left_cancel h2
  have h4 := str_append_left_cancel h3
  exact encodeURIComponent_injective (str_append_left_cancel h4)

theorem httpString_pair_inj (method pathname a1 b1 a2 b2 : String)
    (h : cosHttpString method pathname [("host", a1), ("content-type", b1)] =
      cosHttpString method pathname [("host", a2), ("content-type", b2)]) :
    a1 = a2 ∧ b1 = b2 := by
  have e : ∀ a b : String,
      cosHttpString method pathname [("host", a), ("content-type", b)] =
      lowerStr method ++ "\n" ++ (pathname ++ "\n" ++ ("" ++ "\n" ++
        ("content-type" ++ "=" ++ encodeURIComponent b ++ "&" ++
          ("host" ++ "=" ++ encodeURIComponent a)))) ++ "\n" := by
    intro a b
    rfl
  rw [e a1 b1, e a2 b2] at h
  have h1 := str_append_right_cancel h
  have h2 := str_append_left_cancel h1
  have h3 := str_append_left_cancel h2
  have h4 := str_append_left_cancel h3
  have hd := congrArg String.data h4
  simp only [String.data_append, List.append_assoc] at hd
  have hd2 := List.append_cancel_left hd
  have hd3 := List.append_cancel_left hd2
  have hamp : ("&" : String).data ++ (("host" : String).data ++
      (("=" : String).data ++ (encodeURIComponent a1).data)) =
      '&' :: (("host" : String).data ++ (("=" : String).data ++
        (encodeURIComponent a1).data)) := rfl
  have hamp2 : ("&" : String).data ++ (("host" : String).data ++
      (("=" : String).data ++ (encodeURIComponent a2).data)) =
      '&' :: (("host" : String).data ++ (("=" : String).data ++
        (encodeURIComponent a2).data)) := rfl
  rw [hamp, hamp2] at hd3
  obtain ⟨hb, ha⟩ := amp_split _ _ _ _ (encodeURIComponent_no_amp b1)
    (encodeURIComponent_no_amp b2) hd3
  have ha2 := List.append_cancel_left ha
  have ha3 := List.append_cancel_left ha2
  refine ⟨?_, ?_⟩
  · exact encodeURIComponent_injective (String.ext ha3)
  · exact encodeURIComponent_injective (String.ext hb)

theorem cosSignature_ne (SH : List Nat → List Nat) (H1 : List Nat → List Nat → List Nat)
    (hSH : Function.Injective fun s => sha1Hex SH (Sum.inl s))
    (hH1 : ∀ k : String, Function.Injective fun msg => hmacSha1Hex H1 (Sum.inl k) msg)
    (secretKey method pathname : String) (m1 m2 : List (String × String)) (now : Nat)
    (hne : cosHttpString method pathname m1 ≠ cosHttpString method pathname m2) :
    cosSignature SH H1 secretKey method pathname m1 now ≠
      cosSignature SH H1 secretKey method pathname m2 now := by
  intro h
  apply hne
  have h1 : cosStringToSign SH (cosSignTime now) (cosHttpString method pathname m1) =
      cosStringToSign SH (cosSignTime now) (cosHttpString method pathname m2) :=
    hH1 (cosSignKey H1 secretKey now) h
  simp only [cosStringToSign, jsJoin_three] at h1
  have h2 := str_append_right_cancel h1
  have h3 := str_append_left_cancel h2
  have h4 := str_append_left_cancel h3
  exact hSH h4

theorem cosAuthOverMap_ne_of_sig (SH : List Nat → List Nat)
    (H1 : List Nat → List Nat → List Nat)
    (secretId secretKey method pathname : String) (params : List String) (now : Nat)
    (m1 m2 : List (String × String))
    (hkeys : cosHeaderKeysSorted m1 = cosHeaderKeysSorted m2)
    (hsig : cosSignature SH H1 secretKey method pathname m1 now ≠
      cosSignature SH H1 secretKey method pathname m2 now) :
    cosAuthOverMap SH H1 secretId secretKey method pathname m1 params now ≠
      cosAuthOverMap SH H1 secretId secretKey method pathname m2 params now := by
  intro h
  apply hsig
  simp only [cosAuthOverMap] at h
  rw [hkeys] at h
  exact str_append_left_cancel h

theorem cosAuthHost_ne (SH : List Nat → List Nat) (H1 : List Nat → List Nat → List Nat)
    (hSH : Function.Injective fun s => sha1Hex SH (Sum.inl s))
    (hH1 : ∀ k : String, Function.Injective fun msg => hmacSha1Hex H1 (Sum.inl k) msg)
    (secretId secretKey method pathname : String) (params : List String) (now : Nat)
    (v1 v2 : String) (hv : v1 ≠ v2) :
    cosAuthOverMap SH H1 secretId secretKey method pathname [("host", v1)] params now ≠
      cosAuthOverMap SH H1 secretId secretKey method pathname [("host", v2)] params now := by
  apply cosAuthOverMap_ne_of_sig SH H1 secretId secretKey method pathname params now
    [("host", v1)] [("host", v2)] rfl
  apply cosSignature_ne SH H1 hSH hH1
  intro h
  exact hv (httpString_single_host_inj _ _ _ _ h)

theorem cosAuthCt_ne (SH : List Nat → List Nat) (H1 : List Nat → List Nat → List Nat)
    (hSH : Function.Injective fun s => sha1Hex SH (Sum.inl s))
    (hH1 : ∀ k : String, Function.Injective fun msg => hmacSha1Hex H1 (Sum.inl k) msg)
    (secretId secretKey method pathname : String) (params : List String) (now : Nat)
    (v1 v2 : String) (hv : v1 ≠ v2) :
    cosAuthOverMap SH H1 secretId secretKey method pathname [("content-type", v1)]
        params now ≠
      cosAuthOverMap SH H1 secretId secretKey method pathname [("content-type", v2)]
        params now := by
  apply cosAuthOverMap_ne_of_sig SH H1 secretId secretKey method pathname params now
    [("content-type", v1)] [("content-type", v2)] rfl
  apply cosSignature_ne SH H1 hSH hH1
  intro h
  exact hv (httpString_single_ct_inj _ _ _ _ h)

theorem cosAuthPair_ne (SH : List Nat → List Nat) (H1 : List Nat → List Nat → List Nat)
    (hSH : Function.Injective fun s => sha1Hex SH (Sum.inl s))
    (hH1 : ∀ k : String, Function.Injective fun msg => hmacSha1Hex H1 (Sum.inl k) msg)
    (secretId secretKey method pathname : String) (params : List String) (now : Nat)
    (a1 b1 a2 b2 : String) (hv : a1 ≠ a2 ∨ b1 ≠ b2) :
    cosAuthOverMap SH H1 secretId secretKey method pathname
        [("host", a1), ("content-type", b1)] params now ≠
      cosAuthOverMap SH H1 secretId secretKey method pathname
        [("host", a2), ("content-type", b2)] params now := by
  apply cosAuthOverMap_ne_of_sig SH H1 secretId secretKey method pathname params now
    [("host", a1), ("content-type", b1)] [("host", a2), ("content-type", b2)] rfl
  apply cosSignature_ne SH H1 hSH hH1
  intro h
  obtain ⟨ha, hb⟩ := httpString_pair_inj _ _ _ _ _ _ h
  rcases hv with hv | hv
  · exact hv ha
  · exact hv hb

theorem cosAuthOverMap_pair_comm (SH : List Nat → List Nat)
    (H1 : List Nat → List Nat → List Nat)
    (secretId secretKey method pathname : String) (params : List String) (now : Nat)
    (x y : String) :
    cosAuthOverMap SH H1 secretId secretKey method pathname
        [("content-type", x), ("host", y)] params now =
      cosAuthOverMap SH H1 secretId secretKey method pathname
        [("host", y), ("content-type", x)] params now := rfl

theorem cosAuthOverMap_value_sensitive (SH : List Nat → List Nat)
    (H1 : List Nat → List Nat → List Nat)
    (hSH : Function.Injective fun s => sha1Hex SH (Sum.inl s))
    (hH1 : ∀ k : String, Function.Injective fun msg => hmacSha1Hex H1 (Sum.inl k) msg)
    (secretId secretKey method pathname : String) (params : List String) (now : Nat)
    (m1 m2 : List (String × String)) (s1 : HeaderMapShape m1) (s2 : HeaderMapShape m2)
    (hph : (mapGet m1 "host").isSome = (mapGet m2 "host").isSome)
    (hpc : (mapGet m1 "content-type").isSome = (mapGet m2 "content-type").isSome)
    (hdiff : mapGet m1 "host" ≠ mapGet m2 "host" ∨
      mapGet m1 "content-type" ≠ mapGet m2 "content-type") :
    cosAuthOverMap SH H1 secretId secretKey method pathname m1 params now ≠
      cosAuthOverMap SH H1 secretId secretKey method pathname m2 params now := by
  rcases s1 with rfl | ⟨v1, rfl⟩ | ⟨v1, rfl⟩ | ⟨a1, b1, rfl⟩ | ⟨a1, b1, rfl⟩
  · rcases s2 with rfl | ⟨v2, rfl⟩ | ⟨v2, rfl⟩ | ⟨a2, b2, rfl⟩ | ⟨a2, b2, rfl⟩
    · simp [mapGet, List.find?] at hdiff
    · simp [mapGet, List.find?] at hph
    · simp [mapGet, List.find?] at hpc
    · simp [mapGet, List.find?] at hph
    · simp [mapGet, List.find?] at hph
  · rcases s2 with rfl | ⟨v2, rfl⟩ | ⟨v2, rfl⟩ | ⟨a2, b2, rfl⟩ | ⟨a2, b2, rfl⟩
    · simp [mapGet, List.find?] at hph
    · simp [mapGet, List.find?] at hdiff
      exact cosAuthHost_ne SH H1 hSH hH1 secretId secretKey method pathname params now
        v1 v2 hdiff
    · simp [mapGet, List.find?] at hph
    · simp [mapGet, List.find?] at hpc
    · simp [mapGet, List.find?] at hpc
  · rcases s2 with rfl | ⟨v2, rfl⟩ | ⟨v2, rfl⟩ | ⟨a2, b2, rfl⟩ | ⟨a2, b2, rfl⟩
    · simp [mapGet, List.find?] at hpc
    · simp [mapGet, List.find?] at hph
    · simp [mapGet, List.find?] at hdiff
      exact cosAuthCt_ne SH H1 hSH hH1 secretId secretKey method pathname params now
        v1 v2 hdiff
    · simp [mapGet, List.find?] at hph
    · simp [mapGet, List.find?] at hph
  · rcases s2 with rfl | ⟨v2, rfl⟩ | ⟨v2, rfl⟩ | ⟨a2, b2, rfl⟩ | ⟨a2, b2, rfl⟩
    · simp [mapGet, List.find?] at hph
    · simp [mapGet, List.find?] at hpc
    · simp [mapGet, List.find?] at hph
    · simp [mapGet, List.find?] at hdiff
      exact cosAuthPair_ne SH H1 hSH hH1 secretId secretKey method pathname params now
        a1 b1 a2 b2 hdiff
    · simp [mapGet, List.find?] at hdiff
      rw [cosAuthOverMap_pair_comm]
      exact cosAuthPair_ne SH H1 hSH hH1 secretId secretKey method pathname params now
        a1 b1 b2 a2 hdiff
  · rcases s2 with rfl | ⟨v2, rfl⟩ | ⟨v2, rfl⟩ | ⟨a2, b2, rfl⟩ | ⟨a2, b2, rfl⟩
    · simp [mapGet, List.find?] at hph
    · simp [mapGet, List.find?] at hpc
    · simp [mapGet, List.find?] at hph
    · simp [mapGet, List.find?] at hdiff
      rw [cosAuthOverMap_pair_comm]
      exact cosAuthPair_ne SH H1 hSH hH1 secretId secretKey method pathname params now
        b1 a1 a2 b2 hdiff
    · simp [mapGet, List.find?] at hdiff
      rw [cosAuthOverMap_pair_comm, cosAuthOverMap_pair_comm]
      exact cosAuthPair_ne SH H1 hSH hH1 secretId secretKey method pathname params now
        b1 a1 b2 a2 hdiff

/-- C5: with identical inputs (including the same clock value) the
Object-Storage signer is reproducible, and — whenever the digest primitives
are injective — changing the value of a signed header (`host` or
`content-type`, with the same headers present) changes the authorization
value. -/
theorem c5_cos_reproducible_and_sensitive (SH : List Nat → List Nat)
    (H1 : List Nat → List Nat → List Nat)
    (hSH : Function.Injective fun s => sha1Hex SH (Sum.inl s))
    (hH1 : ∀ k : String, Function.Injective fun msg => hmacSha1Hex H1 (Sum.inl k) msg)
    (secretId secretKey method pathname : String) (params : List String) (now : Nat)
    (h1 h2 : List (String × Option String))
    (hph : (mapGet (normalizeHeaders h1) "host").isSome =
      (mapGet (normalizeHeaders h2) "host").isSome)
    (hpc : (mapGet (normalizeHeaders h1) "content-type").isSome =
      (mapGet (normalizeHeaders h2) "content-type").isSome)
    (hdiff : mapGet (normalizeHeaders h1) "host" ≠ mapGet (normalizeHeaders h2) "host" ∨
      mapGet (normalizeHeaders h1) "content-type" ≠
        mapGet (normalizeHeaders h2) "content-type") :
    buildCOSAuth SH H1 secretId secretKey method pathname h1 params now =
      buildCOSAuth SH H1 secretId secretKey method pathname h1 params now ∧
    buildCOSAuth SH H1 secretId secretKey method pathname h1 params now ≠
      buildCOSAuth SH H1 secretId secretKey method pathname h2 params now := by
  refine ⟨rfl, ?_⟩
  rw [buildCOSAuth_overMap, buildCOSAuth_overMap]
  exact cosAuthOverMap_value_sensitive SH H1 hSH hH1 secretId secretKey method pathname
    params now (normalizeHeaders h1) (normalizeHeaders h2)
    (normalizeHeaders_shape h1) (normalizeHeaders_shape h2) hph hpc hdiff

theorem hmacSha1Hex_concatMac_injective (k : String) :
    Function.Injective fun msg => hmacSha1Hex concatMac (Sum.inl k) msg := by
  intro m1 m2 h
  have hb1 : ∀ b ∈ strBytes k ++ strBytes m1, b < 256 := by
    intro b hb
    rcases List.mem_append.mp hb with hb | hb
    · exact strBytes_lt k b hb
    · exact strBytes_lt m1 b hb
  have hb2 : ∀ b ∈ strBytes k ++ strBytes m2, b < 256 := by
    intro b hb
    rcases List.mem_append.mp hb with hb | hb
    · exact strBytes_lt k b hb
    · exact strBytes_lt m2 b hb
  have h2 : strBytes k ++ strBytes m1 = strBytes k ++ strBytes m2 :=
    toHex_injOn (strBytes k ++ strBytes m1) (strBytes k ++ strBytes m2) hb1 hb2 h
  exact strBytes_injective (List.append_cancel_left h2)

theorem sha1Hex_idHash_injective :
    Function.Injective fun s => sha1Hex idHash (Sum.inl s) :=
  toHex_strBytes_injective

theorem c5_cos_reproducible_and_sensitive_witness :
    mapGet (normalizeHeaders [("Host", some "a.example.com"),
        ("Content-Type", some "text/plain")]) "host" ≠
      mapGet (normalizeHeaders [("Host", some "b.example.com"),
        ("Content-Type", some "text/plain")]) "host" ∧
    buildCOSAuth idHash concatMac "id" "sec" "PUT" "/k"
        [("Host", some "a.example.com"), ("Content-Type", some "text/plain")] [] 0 =
      buildCOSAuth idHash concatMac "id" "sec" "PUT" "/k"
        [("Host", some "a.example.com"), ("Content-Type", some "text/plain")] [] 0 ∧
    buildCOSAuth idHash concatMac "id" "sec" "PUT" "/k"
        [("Host", some "a.example.com"), ("Content-Type", some "text/plain")] [] 0 ≠
      buildCOSAuth idHash concatMac "id" "sec" "PUT" "/k"
        [("Host", some "b.example.com"), ("Content-Type", some "text/plain")] [] 0 := by
  have happ := c5_cos_reproducible_and_sensitive idHash concatMac
    sha1Hex_idHash_injective hmacSha1Hex_concatMac_injective
    "id" "sec" "PUT" "/k" [] 0
    [("Host", some "a.example.com"), ("Content-Type", some "text/plain")]
    [("Host", some "b.example.com"), ("Content-Type", some "text/plain")]
    (by decide) (by decide) (Or.inl (by decide))
  exact ⟨by decide, happ.1, happ.2⟩
